import Mathlib

/-!
Shallow embedding of the geometric core of the stereo visual-odometry
repository (stereoVO/geometry/epipolar.py): the geometric filter
`filter_triangulated_points` and the correspondence filter
`filter_matching_inliers`, together with theorems settling the
specification claims about them.

Numeric values (point coordinates, reprojection errors, thresholds,
ratios) are modelled as rationals; Python errors (ZeroDivisionError,
NameError) are modelled by an `Option` result where `none` marks the
raised exception.
-/

namespace StereoVO

/-- A triangulated 3D point, one row of the (N,3) `points3D` array. -/
structure Point3D where
  x : ℚ
  y : ℚ
  z : ℚ
deriving DecidableEq, Repr

/-- A 2D image point, one row of an (N,2) matched-points array. -/
structure Point2D where
  u : ℚ
  v : ℚ
deriving DecidableEq, Repr

/-- Number of `true` entries of a boolean mask; models Python
`sum(mask)` over a NumPy boolean array. -/
def countTrue : List Bool → Nat
  | [] => 0
  | b :: bs => (if b then 1 else 0) + countTrue bs

/-- NumPy boolean-mask indexing `xs[mask]`: keeps the elements of `xs`
at positions where `mask` is `true`, preserving order. -/
def boolSelect {α : Type} : List α → List Bool → List α
  | [], _ => []
  | _ :: _, [] => []
  | a :: as_, b :: bs => if b then a :: boolSelect as_ bs else boolSelect as_ bs

/-- Elementwise `np.logical_and` of two boolean arrays.  NumPy's third
positional argument is the `out` buffer, so the three-argument call
`np.logical_and(a, b, c)` in the source still computes `a AND b`
elementwise (destroying `c`); the embedding therefore takes only the
two operands. -/
def np_logical_and (a b : List Bool) : List Bool :=
  List.zipWith and a b

/-- The geometric filter `filter_triangulated_points(points3D,
reprojError, minDistThresh, maxRadius, repErrThresh)`.

Mirrors the source line by line:
  mask_x      = (x > -12) AND (x < 12)
  mask_y      = (y < 2) AND (y > -8)
  mask_z      = (z > minDistThresh)
  mask_R      = (x^2 + y^2 + z^2 < maxRadius)
  mask_reproj = (reprojError < repErrThresh)
  mask_triangulation = np.logical_and(np.logical_and(mask_x, mask_y, mask_z), mask_reproj)
  ratioFilter = sum(mask_triangulation) / len(mask_triangulation)
  points3D_filter = points3D[mask_triangulation]

In the three-argument `np.logical_and(mask_x, mask_y, mask_z)` the
third argument is NumPy's `out` buffer, so `mask_z` is overwritten and
the value is `mask_x AND mask_y`; `mask_R` is computed but never
combined into the final mask.  The division `sum(mask)/len(mask)`
raises `ZeroDivisionError` when the mask is empty, modelled by `none`. -/
def filter_triangulated_points (points3D : List Point3D) (reprojError : List ℚ)
    (minDistThresh maxRadius repErrThresh : ℚ) :
    Option (List Point3D × List Bool × ℚ) :=
  let mask_x := points3D.map (fun p => decide (p.x > -12) && decide (p.x < 12))
  let mask_y := points3D.map (fun p => decide (p.y < 2) && decide (p.y > -8))
  let _mask_z := points3D.map (fun p => decide (p.z > minDistThresh))
  let _mask_R := points3D.map (fun p => decide (p.x ^ 2 + p.y ^ 2 + p.z ^ 2 < maxRadius))
  let mask_reproj := reprojError.map (fun e => decide (e < repErrThresh))
  let mask_triangulation := np_logical_and (np_logical_and mask_x mask_y) mask_reproj
  if mask_triangulation.length = 0 then
    none
  else
    let ratioFilter : ℚ := (countTrue mask_triangulation : ℚ) / (mask_triangulation.length : ℚ)
    let points3D_filter := boolSelect points3D mask_triangulation
    some (points3D_filter, mask_triangulation, ratioFilter)

/-- The per-point admissibility test actually applied by
`filter_triangulated_points` (see the lemma
`filter_triangulated_points_eq`): hardcoded lateral bound
-12 < x < 12, hardcoded vertical bound -8 < y < 2, and the
reprojection-error bound.  `minDistThresh` and `maxRadius` do not
occur: their masks are lost in the source (out-buffer overwrite,
unused variable). -/
def admitPoint (repErrThresh : ℚ) (p : Point3D) (e : ℚ) : Bool :=
  ((decide (p.x > -12) && decide (p.x < 12)) &&
   (decide (p.y < 2) && decide (p.y > -8))) && decide (e < repErrThresh)

/-- The `params` object consumed by `filter_matching_inliers`:
`params.geometry.epipolarGeometry.numTrials`, `....inlierRatio`, and
`params.debug.logging.inliersFilterRANSAC`.  The fields `method`,
`probability` and `threshold` are forwarded verbatim to
`cv2.findEssentialMat` and are absorbed into the estimator oracle
(see `filter_matching_inliers`), so they are not repeated here. -/
structure EpipolarGeometryParams where
  numTrials : Nat
  inlierRatio : ℚ
deriving Repr

/-- The debug-logging switch `params.debug.logging.inliersFilterRANSAC`. -/
structure DebugLogging where
  inliersFilterRANSAC : Bool
deriving Repr

/-- Nested `params.debug` object. -/
structure DebugParams where
  logging : DebugLogging
deriving Repr

/-- Nested `params.geometry` object. -/
structure GeometryParams where
  epipolarGeometry : EpipolarGeometryParams
deriving Repr

/-- The full `params` attribute dictionary, restricted to the fields
`filter_matching_inliers` reads. -/
structure StereoParams where
  debug : DebugParams
  geometry : GeometryParams
deriving Repr

/-- The trial loop of `filter_matching_inliers`.  `est i` is the inlier
mask produced by `cv2.findEssentialMat` on trial `i` (the estimator is
called with the same point/intrinsic/method/probability/threshold
arguments every iteration; its RANSAC-internal randomness is modelled
by letting the mask depend on the trial index).  `prev` is the value of
the Python variable `mask_epipolar` before the iteration (`none` when
not yet bound), `i` the current trial index, `rem` the number of
iterations left.

Faithful to the source: the `break` on `ratio > inlierRatio` sits
inside `if args_debug.logging.inliersFilterRANSAC:`, so the early stop
happens only when that debug flag is set.  An empty trial mask makes
`sum(mask)/len(mask)` raise `ZeroDivisionError`, modelled by `none`. -/
def ransacLoop (est : Nat → List Bool) (inlierRatio : ℚ) (debugLog : Bool) :
    Option (List Bool) → Nat → Nat → Option (List Bool)
  | prev, _, 0 => prev
  | _, i, rem + 1 =>
    let mask := est i
    if mask.length = 0 then
      none
    else
      let ratio : ℚ := (countTrue mask : ℚ) / (mask.length : ℚ)
      if debugLog && decide (ratio > inlierRatio) then
        some mask
      else
        ransacLoop est inlierRatio debugLog (some mask) (i + 1) rem

/-- The correspondence filter `filter_matching_inliers(leftMatchesPoints,
rightMatchedPoints, intrinsic, params)`.

`cv2.findEssentialMat(leftMatchesPoints, rightMatchedPoints, intrinsic,
method, prob, threshold)` is external OpenCV code; it is modelled by the
oracle `est : Nat -> List Bool` giving the ravelled boolean inlier mask
of trial `i` (all of its arguments are fixed for the duration of one
call, so the oracle is indexed only by the trial number).  The source
has no minimum-correspondence guard: the estimator is invoked
unconditionally.  After the loop, `leftMatchesPoints[mask_epipolar]`
raises `NameError` when `numTrials = 0` (the mask was never bound),
modelled by `none`. -/
def filter_matching_inliers {α : Type} (leftMatchesPoints rightMatchedPoints : List α)
    (est : Nat → List Bool) (params : StereoParams) :
    Option ((List α × List α) × List Bool) :=
  let args_debug := params.debug
  let args_epipolar := params.geometry.epipolarGeometry
  match ransacLoop est args_epipolar.inlierRatio args_debug.logging.inliersFilterRANSAC
      none 0 args_epipolar.numTrials with
  | none => none
  | some mask_epipolar =>
    some ((boolSelect leftMatchesPoints mask_epipolar,
           boolSelect rightMatchedPoints mask_epipolar), mask_epipolar)

/-! ### Helper lemmas about masks and mask selection -/

theorem countTrue_le_length (m : List Bool) : countTrue m ≤ m.length := by
  induction m with
  | nil => simp [countTrue]
  | cons b bs ih =>
    simp only [countTrue, List.length_cons]
    cases b
    all_goals simp
    all_goals omega

theorem boolSelect_length {α : Type} :
    ∀ (xs : List α) (m : List Bool), xs.length = m.length →
      (boolSelect xs m).length = countTrue m := by
  intro xs
  induction xs with
  | nil =>
    intro m h
    cases m with
    | nil => simp [boolSelect, countTrue]
    | cons b bs => simp at h
  | cons a as_ ih =>
    intro m h
    cases m with
    | nil => simp at h
    | cons b bs =>
      simp only [List.length_cons, Nat.succ.injEq] at h
      cases b
      all_goals simp [boolSelect, countTrue, ih bs h]
      all_goals omega

theorem boolSelect_sublist {α : Type} :
    ∀ (xs : List α) (m : List Bool), (boolSelect xs m).Sublist xs := by
  intro xs
  induction xs with
  | nil => intro m; cases m <;> simp [boolSelect]
  | cons a as_ ih =>
    intro m
    cases m with
    | nil => simp [boolSelect]
    | cons b bs =>
      cases b with
      | false => exact (ih bs).cons a
      | true => exact (ih bs).cons₂ a

theorem boolSelect_mem {α : Type} :
    ∀ (xs : List α) (m : List Bool) (i : Nat) (hx : i < xs.length) (hm : i < m.length),
      m.get ⟨i, hm⟩ = true → xs.get ⟨i, hx⟩ ∈ boolSelect xs m := by
  intro xs
  induction xs with
  | nil => intro m i hx; simp at hx
  | cons a as_ ih =>
    intro m i hx hm ht
    cases m with
    | nil => simp at hm
    | cons b bs =>
      cases i with
      | zero =>
        simp only [List.get] at ht
        subst ht
        simp [boolSelect]
      | succ j =>
        have hx' : j < as_.length := by simpa using hx
        have hm' : j < bs.length := by simpa using hm
        have ht' : bs.get ⟨j, hm'⟩ = true := ht
        have hmem := ih bs j hx' hm' ht'
        show (a :: as_).get ⟨j + 1, hx⟩ ∈ boolSelect (a :: as_) (b :: bs)
        have hget : (a :: as_).get ⟨j + 1, hx⟩ = as_.get ⟨j, hx'⟩ := rfl
        rw [hget]
        have hmem' : as_[j] ∈ boolSelect as_ bs := hmem
        cases b
        · simpa [boolSelect] using hmem'
        · show as_[j] ∈ if true = true then a :: boolSelect as_ bs else boolSelect as_ bs
          rw [if_pos rfl]
          exact List.mem_cons_of_mem a hmem'

theorem countTrue_eq_length_of_all_true (m : List Bool) (h : ∀ b ∈ m, b = true) :
    countTrue m = m.length := by
  induction m with
  | nil => rfl
  | cons b bs ih =>
    have hb := h b (by simp)
    subst hb
    have hbs := ih (fun x hx => h x (by simp [hx]))
    show (if true then 1 else 0) + countTrue bs = bs.length + 1
    rw [hbs, if_pos rfl, Nat.add_comm]

theorem eq_replicate_of_all_true (m : List Bool) (h : ∀ b ∈ m, b = true) :
    m = List.replicate m.length true := by
  induction m with
  | nil => rfl
  | cons b bs ih =>
    have hb := h b (by simp)
    subst hb
    simp only [List.length_cons, List.replicate_succ, List.cons.injEq, true_and]
    exact ih (fun x hx => h x (by simp [hx]))

theorem boolSelect_replicate_true {α : Type} (xs : List α) :
    boolSelect xs (List.replicate xs.length true) = xs := by
  induction xs with
  | nil => rfl
  | cons a as_ ih => simp [boolSelect, List.replicate_succ, ih]

theorem countTrue_replicate_true (n : Nat) :
    countTrue (List.replicate n true) = n := by
  induction n with
  | zero => rfl
  | succ k ih =>
    show (if true then 1 else 0) + countTrue (List.replicate k true) = k + 1
    rw [ih, if_pos rfl, Nat.add_comm]

theorem zipWith_and_maps {α β : Type} (f : α → Bool) (g : β → Bool) :
    ∀ (xs : List α) (ys : List β),
      List.zipWith and (xs.map f) (ys.map g) =
        List.zipWith (fun x y => f x && g y) xs ys := by
  intro xs
  induction xs with
  | nil => intro ys; simp
  | cons a as_ ih =>
    intro ys
    cases ys with
    | nil => simp
    | cons b bs => simp [ih bs]

theorem zipWith_self_maps {α : Type} (f g : α → Bool) (xs : List α) :
    List.zipWith and (xs.map f) (xs.map g) = xs.map (fun x => f x && g x) := by
  induction xs with
  | nil => rfl
  | cons a as_ ih => simp [ih]

/-- Unfolded form of the geometric filter: the returned mask is the
pointwise `admitPoint` test zipped over points and reprojection errors
(`minDistThresh` and `maxRadius` have disappeared). -/
theorem filter_triangulated_points_eq (points3D : List Point3D) (reprojError : List ℚ)
    (minDistThresh maxRadius repErrThresh : ℚ) :
    filter_triangulated_points points3D reprojError minDistThresh maxRadius repErrThresh =
      (if (List.zipWith (fun p e => admitPoint repErrThresh p e) points3D reprojError).length = 0
       then none
       else some
         (boolSelect points3D (List.zipWith (fun p e => admitPoint repErrThresh p e) points3D reprojError),
          List.zipWith (fun p e => admitPoint repErrThresh p e) points3D reprojError,
          (countTrue (List.zipWith (fun p e => admitPoint repErrThresh p e) points3D reprojError) : ℚ) /
            ((List.zipWith (fun p e => admitPoint repErrThresh p e) points3D reprojError).length : ℚ))) := by
  simp only [filter_triangulated_points, np_logical_and, admitPoint]
  rw [zipWith_self_maps, zipWith_and_maps]

/-- If every trial mask of the estimator oracle is nonempty, the trial
loop terminates with a bound mask (no ZeroDivisionError, and the mask
variable is bound as soon as one iteration has run). -/
theorem ransacLoop_isSome (est : Nat → List Bool) (inlierRatio : ℚ) (debugLog : Bool)
    (hest : ∀ j, (est j).length ≠ 0) :
    ∀ (rem i : Nat) (prev : Option (List Bool)), (1 ≤ rem ∨ prev.isSome = true) →
      (ransacLoop est inlierRatio debugLog prev i rem).isSome = true := by
  intro rem
  induction rem with
  | zero =>
    intro i prev h
    rcases h with h | h
    · omega
    · exact h
  | succ k ih =>
    intro i prev h
    show (ransacLoop est inlierRatio debugLog prev i (k + 1)).isSome = true
    simp only [ransacLoop]
    rw [if_neg (hest i)]
    by_cases hb :
        (debugLog && decide ((countTrue (est i) : ℚ) / ((est i).length : ℚ) > inlierRatio)) = true
    · rw [if_pos hb]; rfl
    · rw [if_neg hb]
      exact ih (i + 1) (some (est i)) (Or.inr rfl)

/-- Any property holding of every trial mask of the oracle (and of the
incoming mask, when bound) holds of the mask the trial loop returns. -/
theorem ransacLoop_some_prop (est : Nat → List Bool) (inlierRatio : ℚ) (debugLog : Bool)
    (P : List Bool → Prop) (hP : ∀ j, P (est j)) :
    ∀ (rem i : Nat) (prev : Option (List Bool)) (m : List Bool),
      (∀ m0, prev = some m0 → P m0) →
      ransacLoop est inlierRatio debugLog prev i rem = some m → P m := by
  intro rem
  induction rem with
  | zero =>
    intro i prev m hprev h
    exact hprev m h
  | succ k ih =>
    intro i prev m hprev h
    simp only [ransacLoop] at h
    by_cases h0 : (est i).length = 0
    · rw [if_pos h0] at h
      exact Option.noConfusion h
    · rw [if_neg h0] at h
      by_cases hb :
          (debugLog && decide ((countTrue (est i) : ℚ) / ((est i).length : ℚ) > inlierRatio)) = true
      · rw [if_pos hb] at h
        cases h
        exact hP i
      · rw [if_neg hb] at h
        exact ih (i + 1) (some (est i)) m (fun m0 hm0 => by cases hm0; exact hP i) h

/-- Changing only `minDistThresh` and `maxRadius` never changes the
result of the geometric filter: neither threshold reaches the final
mask in the source. -/
theorem filter_triangulated_points_thresh_irrelevant
    (points3D : List Point3D) (reprojError : List ℚ)
    (minDistThresh maxRadius minDistThresh' maxRadius' repErrThresh : ℚ) :
    filter_triangulated_points points3D reprojError minDistThresh maxRadius repErrThresh =
      filter_triangulated_points points3D reprojError minDistThresh' maxRadius' repErrThresh := by
  rw [filter_triangulated_points_eq, filter_triangulated_points_eq]

/-! ### Claim theorems -/

/-- C1: the claim states that the RANSAC trial loop stops at the first
trial whose inlier ratio strictly exceeds the threshold and returns
that trial's mask.  False: in the source the `break` sits inside
`if args_debug.logging.inliersFilterRANSAC:`, so with debug logging
disabled no early stop happens.  Here trial 0 yields mask
`[true, true]` with ratio 1 > threshold 1/2, yet the call (debug off,
numTrials = 2) returns trial 1's mask `[false, true]`. -/
theorem C1_early_stop_skipped_when_debug_off :
    (fun i : Nat => if i = 0 then [true, true] else [false, true]) 0 = [true, true] ∧
    (countTrue [true, true] : ℚ) / (([true, true] : List Bool).length : ℚ) > 1 / 2 ∧
    filter_matching_inliers (α := Point2D) [⟨0, 0⟩, ⟨1, 1⟩] [⟨2, 2⟩, ⟨3, 3⟩]
        (fun i => if i = 0 then [true, true] else [false, true])
        ⟨⟨⟨false⟩⟩, ⟨⟨2, 1 / 2⟩⟩⟩ =
      some (([⟨1, 1⟩], [⟨3, 3⟩]), [false, true]) ∧
    ([false, true] : List Bool) ≠ [true, true] := by
  refine ⟨rfl, by norm_num [countTrue], ?_, by decide⟩
  simp only [filter_matching_inliers, ransacLoop]
  norm_num [countTrue, boolSelect]

/-- C2: the claim states that every point with z ≤ minDistThresh is
masked out regardless of reprojection error.  False: the source passes
`mask_z` as the `out` buffer of `np.logical_and(mask_x, mask_y, mask_z)`,
so the forward-distance test never reaches the final mask.  The point
(0, 0, -5) has z = -5 ≤ minDistThresh = 1 yet is admitted with an
all-true mask. -/
theorem C2_min_forward_distance_not_enforced :
    filter_triangulated_points [⟨0, 0, -5⟩] [0] 1 1000 1 =
      some ([⟨0, 0, -5⟩], [true], 1) ∧
    ¬ ((-5 : ℚ) > 1) := by
  constructor
  · rw [filter_triangulated_points_eq]
    norm_num [admitPoint, boolSelect, countTrue]
  · norm_num

/-- C3: the claim states a point is admitted only if
x² + y² + z² < maxRadius.  False: the source computes `mask_R` but
never combines it into the final mask.  The point (0, 0, 100) has
squared distance 10000 ≥ maxRadius = 50 yet is admitted with an
all-true mask. -/
theorem C3_max_radius_not_enforced :
    filter_triangulated_points [⟨0, 0, 100⟩] [0] (-1000) 50 1 =
      some ([⟨0, 0, 100⟩], [true], 1) ∧
    ¬ ((0 : ℚ) ^ 2 + (0 : ℚ) ^ 2 + (100 : ℚ) ^ 2 < 50) := by
  constructor
  · rw [filter_triangulated_points_eq]
    norm_num [admitPoint, boolSelect, countTrue]
  · norm_num

/-- C4: the claim states two runs differing only in the debug settings
return identical results.  False: the debug flag gates the early
`break`, so with the same trial oracle (trial 0 all-inliers, trial 1
one inlier) the debug-on run returns trial 0's mask `[true, true,
true]` while the debug-off run returns trial 1's mask
`[true, false, false]`. -/
theorem C4_debug_flag_changes_result :
    filter_matching_inliers (α := Point2D) [⟨0, 0⟩, ⟨1, 1⟩, ⟨2, 2⟩] [⟨3, 3⟩, ⟨4, 4⟩, ⟨5, 5⟩]
        (fun i => if i = 0 then [true, true, true] else [true, false, false])
        ⟨⟨⟨true⟩⟩, ⟨⟨2, 1 / 2⟩⟩⟩ =
      some (([⟨0, 0⟩, ⟨1, 1⟩, ⟨2, 2⟩], [⟨3, 3⟩, ⟨4, 4⟩, ⟨5, 5⟩]), [true, true, true]) ∧
    filter_matching_inliers (α := Point2D) [⟨0, 0⟩, ⟨1, 1⟩, ⟨2, 2⟩] [⟨3, 3⟩, ⟨4, 4⟩, ⟨5, 5⟩]
        (fun i => if i = 0 then [true, true, true] else [true, false, false])
        ⟨⟨⟨false⟩⟩, ⟨⟨2, 1 / 2⟩⟩⟩ =
      some (([⟨0, 0⟩], [⟨3, 3⟩]), [true, false, false]) ∧
    ([true, true, true] : List Bool) ≠ [true, false, false] := by
  refine ⟨?_, ?_, by decide⟩
  · simp only [filter_matching_inliers, ransacLoop]
    norm_num [countTrue, boolSelect]
  · simp only [filter_matching_inliers, ransacLoop]
    norm_num [countTrue, boolSelect]

/-- C5 counterexample: the claim states that on empty input the
geometric filter returns an empty filtered set, an empty mask and
ratio 0.  False: `sum(mask)/len(mask)` raises `ZeroDivisionError`
(modelled by `none`), so no value is returned at all. -/
theorem C5_counterexample : filter_triangulated_points [] [] 1 100 1 = none := rfl

/-- C5 (amended): on empty input `filter_triangulated_points` raises a
`ZeroDivisionError` while computing the diagnostic ratio — it returns
no result, for every choice of thresholds. -/
theorem C5_empty_input_divides_by_zero (minDistThresh maxRadius repErrThresh : ℚ) :
    filter_triangulated_points [] [] minDistThresh maxRadius repErrThresh = none := rfl

/-- C6: for nonempty well-formed input, the filtered output of
`filter_triangulated_points` is exactly the mask-selected subsequence
of the input (order preserved), its length is the number of `true`
mask entries, the mask covers every input point, the returned ratio is
count(mask)/N, and 0 ≤ ratio ≤ 1. -/
theorem C6_geometric_filter_invariants
    (points3D : List Point3D) (reprojError : List ℚ)
    (minDistThresh maxRadius repErrThresh : ℚ)
    (filtered : List Point3D) (mask : List Bool) (ratio : ℚ)
    (hlen : reprojError.length = points3D.length)
    (hN : 1 ≤ points3D.length)
    (hrun : filter_triangulated_points points3D reprojError minDistThresh maxRadius repErrThresh =
      some (filtered, mask, ratio)) :
    filtered = boolSelect points3D mask ∧
    filtered.Sublist points3D ∧
    filtered.length = countTrue mask ∧
    mask.length = points3D.length ∧
    ratio = (countTrue mask : ℚ) / (points3D.length : ℚ) ∧
    0 ≤ ratio ∧ ratio ≤ 1 ∧
    (∀ (i : Nat) (hx : i < points3D.length) (hm : i < mask.length),
      mask.get ⟨i, hm⟩ = true → points3D.get ⟨i, hx⟩ ∈ filtered) := by
  rw [filter_triangulated_points_eq] at hrun
  have hzmlen :
      (List.zipWith (fun p e => admitPoint repErrThresh p e) points3D reprojError).length =
        points3D.length := by
    rw [List.length_zipWith, hlen, Nat.min_self]
  by_cases h0 :
      (List.zipWith (fun p e => admitPoint repErrThresh p e) points3D reprojError).length = 0
  · rw [if_pos h0] at hrun
    exact Option.noConfusion hrun
  · rw [if_neg h0] at hrun
    simp only [Option.some.injEq, Prod.mk.injEq] at hrun
    obtain ⟨hf, hm, hr⟩ := hrun
    rw [hm] at hf hr hzmlen
    have hlenm : points3D.length = mask.length := hzmlen.symm
    have hNpos : (0 : ℚ) < (points3D.length : ℚ) := by
      exact_mod_cast Nat.lt_of_lt_of_le Nat.zero_lt_one hN
    refine ⟨hf.symm, ?_, ?_, hzmlen, ?_, ?_, ?_, ?_⟩
    · rw [← hf]
      exact boolSelect_sublist points3D mask
    · rw [← hf]
      exact boolSelect_length points3D mask hlenm
    · rw [← hr, hzmlen]
    · rw [← hr, hzmlen]
      exact div_nonneg (Nat.cast_nonneg _) (le_of_lt hNpos)
    · rw [← hr, hzmlen]
      rw [div_le_one hNpos]
      exact_mod_cast Nat.le_trans (countTrue_le_length mask) (Nat.le_of_eq hlenm.symm)
    · intro i hx hm ht
      rw [← hf]
      exact boolSelect_mem points3D mask i hx hm ht

/-- C6 witness: a two-point instance (one point passes, one fails the
lateral bound) on which the invariants of
`C6_geometric_filter_invariants` hold with mask `[true, false]` and
ratio 1/2. -/
theorem C6_witness :
    ([⟨0, 0, 1⟩] : List Point3D) = boolSelect [⟨0, 0, 1⟩, ⟨20, 0, 1⟩] [true, false] ∧
    ([⟨0, 0, 1⟩] : List Point3D).Sublist [⟨0, 0, 1⟩, ⟨20, 0, 1⟩] ∧
    ([⟨0, 0, 1⟩] : List Point3D).length = countTrue [true, false] ∧
    ([true, false] : List Bool).length = ([⟨0, 0, 1⟩, ⟨20, 0, 1⟩] : List Point3D).length ∧
    (1 / 2 : ℚ) =
      (countTrue [true, false] : ℚ) / (([⟨0, 0, 1⟩, ⟨20, 0, 1⟩] : List Point3D).length : ℚ) ∧
    (0 : ℚ) ≤ 1 / 2 ∧ (1 / 2 : ℚ) ≤ 1 ∧
    (∀ (i : Nat) (hx : i < ([⟨0, 0, 1⟩, ⟨20, 0, 1⟩] : List Point3D).length)
        (hm : i < ([true, false] : List Bool).length),
      ([true, false] : List Bool).get ⟨i, hm⟩ = true →
        ([⟨0, 0, 1⟩, ⟨20, 0, 1⟩] : List Point3D).get ⟨i, hx⟩ ∈ ([⟨0, 0, 1⟩] : List Point3D)) :=
  C6_geometric_filter_invariants [⟨0, 0, 1⟩, ⟨20, 0, 1⟩] [0, 0] 0 100 1
    [⟨0, 0, 1⟩] [true, false] (1 / 2) rfl (by decide)
    (by rw [filter_triangulated_points_eq]; norm_num [admitPoint, boolSelect, countTrue])

/-- C7: whenever `filter_matching_inliers` returns (same-length inputs;
the estimator oracle returns masks over all N correspondences, as
`cv2.findEssentialMat` does), the two returned inlier sequences have
length count(mask), are the mask-selected subsequences of the inputs,
and preserve relative order. -/
theorem C7_correspondence_invariants {α : Type}
    (left right : List α) (est : Nat → List Bool) (params : StereoParams)
    (inlierLeft inlierRight : List α) (mask : List Bool)
    (hlr : right.length = left.length)
    (hest : ∀ j, (est j).length = left.length)
    (hrun : filter_matching_inliers left right est params =
      some ((inlierLeft, inlierRight), mask)) :
    inlierLeft.length = countTrue mask ∧
    inlierRight.length = countTrue mask ∧
    mask.length = left.length ∧
    inlierLeft = boolSelect left mask ∧
    inlierRight = boolSelect right mask ∧
    inlierLeft.Sublist left ∧
    inlierRight.Sublist right := by
  simp only [filter_matching_inliers] at hrun
  cases hloop : ransacLoop est params.geometry.epipolarGeometry.inlierRatio
      params.debug.logging.inliersFilterRANSAC none 0
      params.geometry.epipolarGeometry.numTrials with
  | none =>
    rw [hloop] at hrun
    exact Option.noConfusion hrun
  | some m =>
    rw [hloop] at hrun
    simp only [Option.some.injEq, Prod.mk.injEq] at hrun
    obtain ⟨⟨hL, hR⟩, hM⟩ := hrun
    rw [hM] at hL hR hloop
    have hmlen : mask.length = left.length :=
      ransacLoop_some_prop est params.geometry.epipolarGeometry.inlierRatio
        params.debug.logging.inliersFilterRANSAC (fun mm => mm.length = left.length) hest
        params.geometry.epipolarGeometry.numTrials 0 none mask
        (fun m0 hm0 => Option.noConfusion hm0) hloop
    refine ⟨?_, ?_, hmlen, hL.symm, hR.symm, ?_, ?_⟩
    · rw [← hL]
      exact boolSelect_length left mask hmlen.symm
    · rw [← hR]
      exact boolSelect_length right mask (by rw [hlr, hmlen])
    · rw [← hL]
      exact boolSelect_sublist left mask
    · rw [← hR]
      exact boolSelect_sublist right mask

/-- C7 witness: a three-correspondence instance with mask
`[true, false, true]` on which the length and subsequence invariants
of `C7_correspondence_invariants` hold. -/
theorem C7_witness :
    ([⟨0, 0⟩, ⟨2, 2⟩] : List Point2D).length = countTrue [true, false, true] ∧
    ([⟨3, 3⟩, ⟨5, 5⟩] : List Point2D).length = countTrue [true, false, true] ∧
    ([true, false, true] : List Bool).length = ([⟨0, 0⟩, ⟨1, 1⟩, ⟨2, 2⟩] : List Point2D).length ∧
    ([⟨0, 0⟩, ⟨2, 2⟩] : List Point2D) =
      boolSelect [⟨0, 0⟩, ⟨1, 1⟩, ⟨2, 2⟩] [true, false, true] ∧
    ([⟨3, 3⟩, ⟨5, 5⟩] : List Point2D) =
      boolSelect [⟨3, 3⟩, ⟨4, 4⟩, ⟨5, 5⟩] [true, false, true] ∧
    ([⟨0, 0⟩, ⟨2, 2⟩] : List Point2D).Sublist [⟨0, 0⟩, ⟨1, 1⟩, ⟨2, 2⟩] ∧
    ([⟨3, 3⟩, ⟨5, 5⟩] : List Point2D).Sublist [⟨3, 3⟩, ⟨4, 4⟩, ⟨5, 5⟩] :=
  C7_correspondence_invariants (α := Point2D) [⟨0, 0⟩, ⟨1, 1⟩, ⟨2, 2⟩] [⟨3, 3⟩, ⟨4, 4⟩, ⟨5, 5⟩]
    (fun _ => [true, false, true]) ⟨⟨⟨false⟩⟩, ⟨⟨1, 9 / 10⟩⟩⟩
    [⟨0, 0⟩, ⟨2, 2⟩] [⟨3, 3⟩, ⟨5, 5⟩] [true, false, true] rfl (fun _ => rfl)
    (by simp only [filter_matching_inliers, ransacLoop]; norm_num [countTrue, boolSelect])

/-- C8 counterexample: the claim states the correspondence filter fails
with `InsufficientCorrespondencesError` whenever fewer than 5 pairs are
supplied.  False: the source has no minimum-count guard (and the
repository defines no such error class); with 3 pairs the estimator is
invoked and the call returns a normal result. -/
theorem C8_counterexample :
    ([⟨0, 0⟩, ⟨1, 1⟩, ⟨6, 6⟩] : List Point2D).length < 5 ∧
    filter_matching_inliers (α := Point2D) [⟨0, 0⟩, ⟨1, 1⟩, ⟨6, 6⟩] [⟨3, 3⟩, ⟨4, 4⟩, ⟨5, 5⟩]
        (fun _ => [true, false, true]) ⟨⟨⟨false⟩⟩, ⟨⟨1, 1 / 2⟩⟩⟩ =
      some (([⟨0, 0⟩, ⟨6, 6⟩], [⟨3, 3⟩, ⟨5, 5⟩]), [true, false, true]) := by
  refine ⟨by decide, ?_⟩
  simp only [filter_matching_inliers, ransacLoop]
  norm_num [countTrue, boolSelect]

/-- C8 (amended): `filter_matching_inliers` performs no
minimum-correspondence check: even with fewer than 5 pairs it proceeds
to invoke the essential-matrix estimator and returns a normal result
whenever at least one trial runs and the estimator produces nonempty
masks; any failure on too-few points would come from the estimator
itself, not from a repository-defined error. -/
theorem C8_no_minimum_count_guard {α : Type} (left right : List α)
    (est : Nat → List Bool) (params : StereoParams)
    (hfew : left.length < 5)
    (htrials : 1 ≤ params.geometry.epipolarGeometry.numTrials)
    (hest : ∀ j, (est j).length ≠ 0) :
    (filter_matching_inliers left right est params).isSome = true := by
  simp only [filter_matching_inliers]
  cases hloop : ransacLoop est params.geometry.epipolarGeometry.inlierRatio
      params.debug.logging.inliersFilterRANSAC none 0
      params.geometry.epipolarGeometry.numTrials with
  | none =>
    have hsome := ransacLoop_isSome est params.geometry.epipolarGeometry.inlierRatio
      params.debug.logging.inliersFilterRANSAC hest
      params.geometry.epipolarGeometry.numTrials 0 none (Or.inl htrials)
    rw [hloop] at hsome
    exact absurd hsome (by simp)
  | some m =>
    rfl

/-- C8 witness: a 2-pair call (2 < 5) that returns a normal result. -/
theorem C8_witness :
    (filter_matching_inliers (α := Point2D) [⟨0, 0⟩, ⟨1, 1⟩] [⟨2, 2⟩, ⟨3, 3⟩]
      (fun _ => [true, true]) ⟨⟨⟨false⟩⟩, ⟨⟨1, 1 / 2⟩⟩⟩).isSome = true :=
  C8_no_minimum_count_guard (α := Point2D) [⟨0, 0⟩, ⟨1, 1⟩] [⟨2, 2⟩, ⟨3, 3⟩]
    (fun _ => [true, true]) ⟨⟨⟨false⟩⟩, ⟨⟨1, 1 / 2⟩⟩⟩
    (by decide) (by decide) (fun _ => Nat.succ_ne_zero 1)

/-- C9 counterexample: the claim states admission requires
config.xMin < x < config.xMax for whatever bound values the caller
supplies.  False: taking caller bounds xMin = 0, xMax = 1, the point
with x = 5 violates them (5 is not between 0 and 1) yet is admitted —
the bounds actually applied are the hardcoded -12 < x < 12, and the
function signature carries no lateral/vertical bound parameters at
all. -/
theorem C9_counterexample :
    filter_triangulated_points [⟨5, 0, 1⟩] [0] 0 1000 1 =
      some ([⟨5, 0, 1⟩], [true], 1) ∧
    ¬ ((0 : ℚ) < 5 ∧ (5 : ℚ) < 1) := by
  constructor
  · rw [filter_triangulated_points_eq]
    norm_num [admitPoint, boolSelect, countTrue]
  · norm_num

/-- C9 (amended): the lateral and vertical admissibility bounds of
`filter_triangulated_points` are hardcoded at -12 < x < 12 and
-8 < y < 2; no caller-supplied lateral/vertical bounds exist in the
signature.  The returned mask is exactly the pointwise `admitPoint` test
(hardcoded x/y bounds plus the reprojection-error threshold), and the
two thresholds that are supplied besides `repErrThresh` —
`minDistThresh` and `maxRadius` — do not influence the result at
all. -/
theorem C9_bounds_hardcoded (points3D : List Point3D) (reprojError : List ℚ)
    (minDistThresh maxRadius repErrThresh : ℚ)
    (filtered : List Point3D) (mask : List Bool) (ratio : ℚ)
    (hrun : filter_triangulated_points points3D reprojError minDistThresh maxRadius repErrThresh =
      some (filtered, mask, ratio)) :
    mask = List.zipWith (fun p e => admitPoint repErrThresh p e) points3D reprojError ∧
    (∀ (i : Nat) (hm : i < mask.length) (hx : i < points3D.length) (he : i < reprojError.length),
      mask.get ⟨i, hm⟩ = true ↔
        (((points3D.get ⟨i, hx⟩).x > -12 ∧ (points3D.get ⟨i, hx⟩).x < 12) ∧
         ((points3D.get ⟨i, hx⟩).y < 2 ∧ (points3D.get ⟨i, hx⟩).y > -8)) ∧
        reprojError.get ⟨i, he⟩ < repErrThresh) ∧
    (∀ minDistThresh' maxRadius',
      filter_triangulated_points points3D reprojError minDistThresh' maxRadius' repErrThresh =
        some (filtered, mask, ratio)) := by
  have hmask : mask = List.zipWith (fun p e => admitPoint repErrThresh p e) points3D reprojError := by
    rw [filter_triangulated_points_eq] at hrun
    by_cases h0 :
        (List.zipWith (fun p e => admitPoint repErrThresh p e) points3D reprojError).length = 0
    · rw [if_pos h0] at hrun
      exact Option.noConfusion hrun
    · rw [if_neg h0] at hrun
      simp only [Option.some.injEq, Prod.mk.injEq] at hrun
      exact hrun.2.1.symm
  refine ⟨hmask, ?_, ?_⟩
  · subst hmask
    intro i hm hx he
    simp only [List.get_eq_getElem, List.getElem_zipWith]
    simp [admitPoint, decide_eq_true_eq]
  · intro minDistThresh' maxRadius'
    rw [filter_triangulated_points_thresh_irrelevant points3D reprojError minDistThresh' maxRadius'
      minDistThresh maxRadius repErrThresh]
    exact hrun

/-- C9 witness: a single admitted point with x = 1: its mask entry is
the hardcoded admissibility test, and changing `minDistThresh` and
`maxRadius` to any other values leaves the result unchanged. -/
theorem C9_witness :
    ([true] : List Bool) = List.zipWith (fun p e => admitPoint 1 p e) [⟨1, 0, 1⟩] [0] ∧
    (∀ (i : Nat) (hm : i < ([true] : List Bool).length)
        (hx : i < ([⟨1, 0, 1⟩] : List Point3D).length) (he : i < ([(0 : ℚ)] : List ℚ).length),
      ([true] : List Bool).get ⟨i, hm⟩ = true ↔
        (((([⟨1, 0, 1⟩] : List Point3D).get ⟨i, hx⟩).x > -12 ∧
          (([⟨1, 0, 1⟩] : List Point3D).get ⟨i, hx⟩).x < 12) ∧
         ((([⟨1, 0, 1⟩] : List Point3D).get ⟨i, hx⟩).y < 2 ∧
          (([⟨1, 0, 1⟩] : List Point3D).get ⟨i, hx⟩).y > -8)) ∧
        ([(0 : ℚ)] : List ℚ).get ⟨i, he⟩ < 1) ∧
    (∀ minDistThresh' maxRadius',
      filter_triangulated_points [⟨1, 0, 1⟩] [0] minDistThresh' maxRadius' 1 =
        some ([⟨1, 0, 1⟩], [true], 1)) :=
  C9_bounds_hardcoded [⟨1, 0, 1⟩] [0] 7 9 1 [⟨1, 0, 1⟩] [true] 1
    (by rw [filter_triangulated_points_eq]; norm_num [admitPoint, boolSelect, countTrue])

/-- C10: the geometric filter is idempotent on its own output: if a run
returns an all-true mask, re-running the filter with the same
thresholds on the filtered points (with the correspondingly filtered
reprojection errors) admits every point again — all-true mask,
identical point set, ratio 1. -/
theorem C10_filter_idempotent (points3D : List Point3D) (reprojError : List ℚ)
    (minDistThresh maxRadius repErrThresh : ℚ)
    (filtered : List Point3D) (mask : List Bool) (ratio : ℚ)
    (hlen : reprojError.length = points3D.length)
    (hrun : filter_triangulated_points points3D reprojError minDistThresh maxRadius repErrThresh =
      some (filtered, mask, ratio))
    (hall : ∀ b ∈ mask, b = true) :
    filter_triangulated_points filtered (boolSelect reprojError mask)
        minDistThresh maxRadius repErrThresh =
      some (filtered, List.replicate filtered.length true, 1) := by
  rw [filter_triangulated_points_eq] at hrun
  by_cases h0 :
      (List.zipWith (fun p e => admitPoint repErrThresh p e) points3D reprojError).length = 0
  · rw [if_pos h0] at hrun
    exact Option.noConfusion hrun
  · rw [if_neg h0] at hrun
    simp only [Option.some.injEq, Prod.mk.injEq] at hrun
    obtain ⟨hf, hm, hr⟩ := hrun
    have hzmlen :
        (List.zipWith (fun p e => admitPoint repErrThresh p e) points3D reprojError).length =
          points3D.length := by
      rw [List.length_zipWith, hlen, Nat.min_self]
    have hmlen : mask.length = points3D.length := by rw [← hm, hzmlen]
    have hrep : mask = List.replicate points3D.length true := by
      rw [← hmlen]
      exact eq_replicate_of_all_true mask hall
    have hfp : filtered = points3D := by
      rw [← hf, hm, hrep]
      exact boolSelect_replicate_true points3D
    have herr : boolSelect reprojError mask = reprojError := by
      rw [hrep, ← hlen]
      exact boolSelect_replicate_true reprojError
    have hNne : points3D.length ≠ 0 := by
      intro hc
      rw [hzmlen] at h0
      exact h0 hc
    have hzm_rep :
        List.zipWith (fun p e => admitPoint repErrThresh p e) points3D reprojError =
          List.replicate points3D.length true := by
      rw [hm, hrep]
    rw [hfp, herr, filter_triangulated_points_eq, if_neg h0, hzm_rep]
    rw [boolSelect_replicate_true, countTrue_replicate_true, List.length_replicate]
    rw [div_self (Nat.cast_ne_zero.mpr hNne)]

/-- C10 witness: a single point passing every applied test; re-running
the filter on the output returns the same point, an all-true mask and
ratio 1. -/
theorem C10_witness :
    filter_triangulated_points [⟨0, 0, 1⟩] (boolSelect [0] [true]) 0 100 1 =
      some ([⟨0, 0, 1⟩], List.replicate ([⟨0, 0, 1⟩] : List Point3D).length true, 1) :=
  C10_filter_idempotent [⟨0, 0, 1⟩] [0] 0 100 1 [⟨0, 0, 1⟩] [true] 1 rfl
    (by rw [filter_triangulated_points_eq]; norm_num [admitPoint, boolSelect, countTrue])
    (by decide)

end StereoVO
